import Mathlib

/-!
Verification of the dependency reconciliation module (`src/packages/mrm-core/src/npm.js`).

The module's decision core (`install`, `uninstall`, `getUnsatisfiedDeps`,
`getVersionedDep`, `runNpm`, `runYarn`, `isUsingYarn`) is embedded below as
executable Lean functions.  Its external collaborators — the manifest store
(`packageJson`), the installed-package store (`json` over `node_modules`), the
`yarn.lock` presence check (`fs.existsSync`) and the semver evaluator
(`semver.validRange` / `semver.satisfies`) — live outside the verified source
and are modelled, following the spec's interface contracts, as an explicit
environment record `Env`.

JavaScript truthiness matters in this code: a lookup such as
`ownDependencies[dep]` is used in boolean position, where both `undefined`
(key absent) and the empty string are falsy.  Lookups are therefore modelled
as `Option String` together with the explicit predicate `isTruthy`.
-/

namespace Mrm

/-- An object of string values, as association list (JS object keys are unique;
lookup takes the first binding). -/
abbrev ObjMap := List (String × String)

/-- Lookup of a key in an object; `none` models JS `undefined`. -/
def lookup (m : ObjMap) (k : String) : Option String :=
  (m.find? (fun p => p.1 == k)).map (fun p => p.2)

/-- JS truthiness of an optional string value: `undefined` and `""` are falsy,
every other string is truthy. -/
def isTruthy : Option String → Bool
  | none => false
  | some s => s != ""

/-- JS `a || b` for an optional string `a` and a string fallback `b`. -/
def jsOrElse (v : Option String) (fallback : String) : String :=
  match v with
  | some s => if s != "" then s else fallback
  | none => fallback

/-- Modelled from the spec: the external collaborators the core depends on,
missing from the verified source tree — the manifest store interface
(optional `dependencies` / `devDependencies` sections, each a name→version
mapping, defaulting to empty), the installed-package store interface
(per-package recorded version, absence is not an error), the backend presence
marker (`yarn.lock` at the project root) and the Version Evaluator
(`isValidRange`, `satisfies`). -/
structure Env where
  dependencies : ObjMap
  devDependencies : ObjMap
  installedVersion : String → Option String
  yarnLockFileExists : Bool
  validRange : String → Bool
  satisfies : String → String → Bool

/-- Modelled from the spec: the `ConfigurationError` (`MrmError` in the code,
from `error.js`, outside the verified source) raised for invalid version
ranges; it carries its message verbatim. -/
structure MrmError where
  message : String
deriving DecidableEq, Repr

/-- A constructed backend command: the program handed to the command runner
together with its ordered argument list.  The execution configuration
(`stdio`, `cwd`) that the code forwards unchanged to `execCommand` is outside
the decision core and not modelled. -/
structure Command where
  program : String
  args : List String
deriving DecidableEq, Repr

/-- `RunOptions` of `runNpm` / `runYarn` (the modelled part: `dev`, `remove`). -/
structure RunOpts where
  dev : Bool := false
  remove : Bool := false

/-- `Options` accepted by `install` / `uninstall`: `dev` (absent means
`undefined`), `yarn`, `versions` (defaulting to `{}`). -/
structure Options where
  dev : Option Bool := none
  yarn : Bool := false
  versions : ObjMap := []

/-- `options.dev !== false`: dev scope is active unless `dev` is literally
`false`. -/
def devScope (options : Options) : Bool :=
  !(options.dev == some false)

/-- `isUsingYarn`: the project uses yarn iff `yarn.lock` exists at the root. -/
def isUsingYarn (env : Env) : Bool :=
  env.yarnLockFileExists

/-- `runNpm`: argument list `['uninstall'|'install', '--save-dev'|'--save']`
followed by the packages, run as `npm`. -/
def runNpm (deps : List String) (options : RunOpts) : Command :=
  { program := "npm",
    args := [if options.remove then "uninstall" else "install",
             if options.dev then "--save-dev" else "--save"] ++ deps }

/-- `runYarn`: argument list `['remove']` for removal, `['add', '--dev']` or
`['add']` otherwise, followed by the packages, run as `yarn`. -/
def runYarn (deps : List String) (options : RunOpts) : Command :=
  { program := "yarn",
    args := (if options.remove then ["remove"]
             else if options.dev then ["add", "--dev"] else ["add"]) ++ deps }

/-- `getVersionedDep`: `` `${dep}@${versions[dep] || 'latest'}` ``. -/
def getVersionedDep (dep : String) (versions : ObjMap) : String :=
  dep ++ "@" ++ jsOrElse (lookup versions dep) "latest"

/-- `getOwnDependencies`: the manifest's `devDependencies` or `dependencies`
section, selected by the `dev` flag (missing sections default to `{}`). -/
def getOwnDependencies (env : Env) (dev : Bool) : ObjMap :=
  if dev then env.devDependencies else env.dependencies

/-- `getInstalledVersion`: the `version` field of
`./node_modules/<name>/package.json`, absent when not installed. -/
def getInstalledVersion (env : Env) (name : String) : Option String :=
  env.installedVersion name

/-- The error thrown for a truthy range that fails `semver.validRange`. -/
def invalidVersionError (required : String) : MrmError :=
  { message := "Invalid npm version: " ++ required ++
      ". Use proper semver range syntax." }

/-- The filter callback of `getUnsatisfiedDeps`, for one requested package:
throws on a truthy invalid range, keeps the package when it is not installed,
when it is missing from the own-dependency map, or when a truthy required
range is not satisfied by the installed version. -/
def depFilter (env : Env) (ownDependencies : ObjMap) (versions : ObjMap)
    (dep : String) : Except MrmError Bool :=
  let required := lookup versions dep
  if isTruthy required && !(env.validRange (required.getD "")) then
    .error (invalidVersionError (required.getD ""))
  else
    let installed := getInstalledVersion env dep
    if !(isTruthy installed) then
      .ok true
    else if !(isTruthy (lookup ownDependencies dep)) then
      .ok true
    else if !(isTruthy required) then
      .ok (!(isTruthy installed))
    else
      .ok (!(env.satisfies (installed.getD "") (required.getD "")))

/-- `deps.filter(...)` with the throwing callback: packages are examined in
request order and the first throw aborts the whole traversal. -/
def filterUnsatisfied (env : Env) (ownDependencies : ObjMap) (versions : ObjMap) :
    List String → Except MrmError (List String)
  | [] => .ok []
  | dep :: rest => do
    let keep ← depFilter env ownDependencies versions dep
    let tail ← filterUnsatisfied env ownDependencies versions rest
    pure (if keep then dep :: tail else tail)

/-- `getUnsatisfiedDeps(deps, versions, options)`: fetch the own-dependency
map once, then filter the requested packages. -/
def getUnsatisfiedDeps (env : Env) (deps : List String) (versions : ObjMap)
    (dev : Bool) : Except MrmError (List String) :=
  filterUnsatisfied env (getOwnDependencies env dev) versions deps

/-- The `deps` argument of `install`: a single name, a list of names, or a
name→range mapping. -/
inductive DepsArg where
  | single (name : String)
  | names (list : List String)
  | withVersions (m : ObjMap)

/-- The `if`/`else if` chain of `install` normalising `deps`: a string becomes
a singleton list, a list is used as given, and a mapping replaces
`options.versions` wholesale and contributes its keys as the package list. -/
def normalizeDeps (deps : DepsArg) (optVersions : ObjMap) : List String × ObjMap :=
  match deps with
  | .single s => ([s], optVersions)
  | .names l => (l, optVersions)
  | .withVersions m => (m.map (fun p => p.1), m)

/-- `install(deps, options)`: normalise `deps`, compute the unsatisfied
subset (propagating the invalid-range error), return without running anything
when it is empty, otherwise run the selected backend on the
version-suffixed packages.  `.ok none` models the early `return` with no
command issued. -/
def install (env : Env) (deps : DepsArg) (options : Options) :
    Except MrmError (Option Command) :=
  match getUnsatisfiedDeps env (normalizeDeps deps options.versions).1
      (normalizeDeps deps options.versions).2 (devScope options) with
  | .error e => .error e
  | .ok newDeps =>
    if newDeps.length == 0 then
      .ok none
    else
      .ok (some ((if options.yarn || isUsingYarn env then runYarn else runNpm)
        (newDeps.map (fun dep =>
          getVersionedDep dep (normalizeDeps deps options.versions).2))
        { dev := devScope options, remove := false }))

/-- The `deps` argument of `uninstall`: a single name or a list of names. -/
inductive StrOrList where
  | single (name : String)
  | names (list : List String)

/-- `_.castArray`. -/
def castArray : StrOrList → List String
  | .single s => [s]
  | .names l => l

/-- `uninstall(deps, options)`: keep the requested packages whose lookup in
the active own-dependency section is truthy, return without running anything
when none remain, otherwise run the selected backend with `remove`. -/
def uninstall (env : Env) (deps : StrOrList) (options : Options) :
    Option Command :=
  let newDeps := (castArray deps).filter (fun dep =>
    isTruthy (lookup (getOwnDependencies env (devScope options)) dep))
  if newDeps.length == 0 then
    none
  else
    some ((if options.yarn || isUsingYarn env then runYarn else runNpm) newDeps
      { dev := devScope options, remove := true })

/-- The names an `install` call acts on, after normalisation. -/
def requestedNames (deps : DepsArg) (options : Options) : List String :=
  (normalizeDeps deps options.versions).1

/-- The version-constraint map an `install` call uses, after normalisation. -/
def requestedVersions (deps : DepsArg) (options : Options) : ObjMap :=
  (normalizeDeps deps options.versions).2

/-- A requested package whose required range is truthy but fails
`validRange` — the condition under which `getUnsatisfiedDeps` throws. -/
def hasInvalidRange (env : Env) (versions : ObjMap) (dep : String) : Bool :=
  isTruthy (lookup versions dep) && !(env.validRange ((lookup versions dep).getD ""))

/-- Decision rule written from claim C1's words, for comparison with
`getUnsatisfiedDeps`: a package is included iff it is not installed (no
installed version recorded), or it is installed but absent — not a key — of
the own-dependency map, or a non-empty required range was specified and the
installed version does not satisfy it. -/
def claimUnsatisfied (env : Env) (own versions : ObjMap) (deps : List String) :
    List String :=
  deps.filter (fun dep =>
    getInstalledVersion env dep == none ||
    lookup own dep == none ||
    (isTruthy (lookup versions dep) &&
      !(env.satisfies ((getInstalledVersion env dep).getD "")
        ((lookup versions dep).getD ""))))

/-- Amended decision rule for one package (claim C1 restated with JS
truthiness): act iff the installed-version lookup is not a non-empty string,
or the own-dependency entry is not a non-empty string, or a non-empty
required range is present and the installed version does not satisfy it. -/
def needsAction (env : Env) (own versions : ObjMap) (dep : String) : Bool :=
  !(isTruthy (getInstalledVersion env dep)) ||
  !(isTruthy (lookup own dep)) ||
  (isTruthy (lookup versions dep) &&
    !(env.satisfies ((getInstalledVersion env dep).getD "")
      ((lookup versions dep).getD "")))

/-- Amended unsatisfied set: the requested packages needing action, in
request order. -/
def amendedUnsatisfied (env : Env) (own versions : ObjMap) (deps : List String) :
    List String :=
  deps.filter (needsAction env own versions)

/-- Removable set written from claim C4's words, for comparison with
`uninstall`: the requested names that are keys of the own-dependency map, in
request order. -/
def claimRemovable (own : ObjMap) (deps : List String) : List String :=
  deps.filter (fun dep => lookup own dep != none)

/-- Amended removable set (`computeRemovable` of the spec, restated with JS
truthiness): the requested names whose own-dependency entry is a non-empty
string, in request order. -/
def computeRemovable (env : Env) (dev : Bool) (deps : List String) : List String :=
  deps.filter (fun dep => isTruthy (lookup (getOwnDependencies env dev) dep))

/-! Concrete environments used by the counterexamples and witnesses. -/

/-- A project whose dev section declares `foo` with an empty version string
while `foo` is installed at `1.0.0`. -/
def envEmptyDecl : Env :=
  { dependencies := [],
    devDependencies := [("foo", "")],
    installedVersion := fun n => if n == "foo" then some "1.0.0" else none,
    yarnLockFileExists := false,
    validRange := fun _ => true,
    satisfies := fun _ _ => true }

/-- A project whose dev section declares `bar` normally while the installed
metadata of `bar` records an empty version string. -/
def envEmptyInstalled : Env :=
  { dependencies := [],
    devDependencies := [("bar", "1.0.0")],
    installedVersion := fun n => if n == "bar" then some "" else none,
    yarnLockFileExists := false,
    validRange := fun _ => true,
    satisfies := fun _ _ => true }

/-- An empty project whose semver evaluator rejects every range. -/
def envRejectAll : Env :=
  { dependencies := [],
    devDependencies := [],
    installedVersion := fun _ => none,
    yarnLockFileExists := false,
    validRange := fun _ => false,
    satisfies := fun _ _ => false }

/-- A project with `pkg` declared at `^1.2.0` in the dev section and
installed at `1.2.5`, with a semver evaluator accepting exactly that pair. -/
def envSatisfied : Env :=
  { dependencies := [],
    devDependencies := [("pkg", "^1.2.0")],
    installedVersion := fun n => if n == "pkg" then some "1.2.5" else none,
    yarnLockFileExists := false,
    validRange := fun r => r == "^1.2.0",
    satisfies := fun v r => v == "1.2.5" && r == "^1.2.0" }

/-- A project with `kept` declared in the dev section and `unused-pkg`
declared with an empty version string; nothing else. -/
def envRemoval : Env :=
  { dependencies := [],
    devDependencies := [("kept", "1.0.0"), ("unused-pkg", "")],
    installedVersion := fun _ => none,
    yarnLockFileExists := false,
    validRange := fun _ => true,
    satisfies := fun _ _ => true }

/-- An empty project with a `yarn.lock` marker at the root. -/
def envYarnLock : Env :=
  { dependencies := [],
    devDependencies := [],
    installedVersion := fun _ => none,
    yarnLockFileExists := true,
    validRange := fun _ => true,
    satisfies := fun _ _ => true }

/-- An empty project without a `yarn.lock` marker, accepting every range. -/
def envPlain : Env :=
  { dependencies := [],
    devDependencies := [],
    installedVersion := fun _ => none,
    yarnLockFileExists := false,
    validRange := fun _ => true,
    satisfies := fun _ _ => true }

/-! Helper lemmas shared by the claim theorems. -/

theorem jsOrElse_eq (v : Option String) (fallback : String) :
    jsOrElse v fallback = if isTruthy v = true then v.getD "" else fallback := by
  cases v with
  | none => simp [jsOrElse, isTruthy]
  | some s =>
    by_cases hs : s = "" <;> simp [jsOrElse, isTruthy, hs]

theorem depFilter_eq_needsAction (env : Env) (own versions : ObjMap) (dep : String)
    (h : isTruthy (lookup versions dep) = true →
      env.validRange ((lookup versions dep).getD "") = true) :
    depFilter env own versions dep = .ok (needsAction env own versions dep) := by
  have hv : (isTruthy (lookup versions dep) &&
      !env.validRange ((lookup versions dep).getD "")) = false := by
    cases hreq : isTruthy (lookup versions dep)
    · rfl
    · simp [h hreq]
  cases hins : isTruthy (getInstalledVersion env dep) <;>
    cases hown : isTruthy (lookup own dep) <;>
      cases hreq : isTruthy (lookup versions dep) <;>
        simp [depFilter, needsAction, hv, hins, hown, hreq, h]

theorem filterUnsatisfied_eq_filter (env : Env) (own versions : ObjMap)
    (deps : List String)
    (h : ∀ d ∈ deps, isTruthy (lookup versions d) = true →
      env.validRange ((lookup versions d).getD "") = true) :
    filterUnsatisfied env own versions deps =
      .ok (deps.filter (needsAction env own versions)) := by
  induction deps with
  | nil => rfl
  | cons d rest ih =>
    have hd := h d (List.mem_cons_self d rest)
    have hrest : ∀ x ∈ rest, isTruthy (lookup versions x) = true →
        env.validRange ((lookup versions x).getD "") = true :=
      fun x hx => h x (List.mem_cons_of_mem d hx)
    rw [filterUnsatisfied, depFilter_eq_needsAction env own versions d hd, ih hrest]
    cases hna : needsAction env own versions d <;>
      rw [List.filter_cons] <;> simp only [hna] <;> rfl

/-- Claim C1, amended: for an install request whose non-empty required ranges
are all syntactically valid, `getUnsatisfiedDeps` succeeds and returns exactly
the requested packages, in request order, for which the installed-version
lookup is not a non-empty string ("not installed"), or the entry in the
active section's own-dependency map is not a non-empty string ("not
declared"), or a non-empty required range is present and the installed
version does not satisfy it; all other requested packages are excluded. -/
theorem unsatisfiedDeps_characterization (env : Env) (deps : List String)
    (versions : ObjMap) (dev : Bool)
    (h : ∀ d ∈ deps, isTruthy (lookup versions d) = true →
      env.validRange ((lookup versions d).getD "") = true) :
    getUnsatisfiedDeps env deps versions dev =
      .ok (amendedUnsatisfied env (getOwnDependencies env dev) versions deps) :=
  filterUnsatisfied_eq_filter env (getOwnDependencies env dev) versions deps h

/-- Claim C1, counterexample to the literal statement: two projects on which
`getUnsatisfiedDeps` includes a package that the claim's rule excludes.  In
`envEmptyDecl`, `foo` is installed at `1.0.0` and IS a key of the dev-section
map (with value `""`), no range is given, yet the code includes it.  In
`envEmptyInstalled`, `bar` has a recorded installed version (`""`) and is
declared at `1.0.0`, no range is given, yet the code includes it. -/
theorem unsatisfiedDeps_keys_counterexample :
    getUnsatisfiedDeps envEmptyDecl ["foo"] [] true = .ok ["foo"] ∧
    claimUnsatisfied envEmptyDecl (getOwnDependencies envEmptyDecl true) [] ["foo"] = [] ∧
    lookup (getOwnDependencies envEmptyDecl true) "foo" = some "" ∧
    getInstalledVersion envEmptyDecl "foo" = some "1.0.0" ∧
    getUnsatisfiedDeps envEmptyInstalled ["bar"] [] true = .ok ["bar"] ∧
    claimUnsatisfied envEmptyInstalled (getOwnDependencies envEmptyInstalled true) [] ["bar"] = [] ∧
    getInstalledVersion envEmptyInstalled "bar" = some "" ∧
    lookup (getOwnDependencies envEmptyInstalled true) "bar" = some "1.0.0" :=
  ⟨rfl, rfl, rfl, rfl, rfl, rfl, rfl, rfl⟩

/-- Witness for `unsatisfiedDeps_characterization` at a concrete project:
`pkg` declared at `^1.2.0`, installed at `1.2.5`, range satisfied. -/
theorem unsatisfiedDeps_characterization_witness :
    (∀ d ∈ ["pkg"], isTruthy (lookup [("pkg", "^1.2.0")] d) = true →
      envSatisfied.validRange ((lookup [("pkg", "^1.2.0")] d).getD "") = true) ∧
    getUnsatisfiedDeps envSatisfied ["pkg"] [("pkg", "^1.2.0")] true =
      .ok (amendedUnsatisfied envSatisfied (getOwnDependencies envSatisfied true)
        [("pkg", "^1.2.0")] ["pkg"]) :=
  ⟨by decide,
   unsatisfiedDeps_characterization envSatisfied ["pkg"] [("pkg", "^1.2.0")] true
     (by decide)⟩

theorem depFilter_error_of_invalid (env : Env) (own versions : ObjMap) (dep : String)
    (h : hasInvalidRange env versions dep = true) :
    depFilter env own versions dep =
      .error (invalidVersionError ((lookup versions dep).getD "")) := by
  simp only [hasInvalidRange] at h
  simp [depFilter, h]

theorem depFilter_ok_of_valid (env : Env) (own versions : ObjMap) (dep : String)
    (h : hasInvalidRange env versions dep = false) :
    depFilter env own versions dep = .ok (needsAction env own versions dep) := by
  apply depFilter_eq_needsAction
  intro ht
  simp only [hasInvalidRange, ht, Bool.true_and, Bool.not_eq_false'] at h
  exact h

theorem filterUnsatisfied_error_of_find (env : Env) (own versions : ObjMap)
    (deps : List String) (d : String)
    (h : deps.find? (hasInvalidRange env versions) = some d) :
    filterUnsatisfied env own versions deps =
      .error (invalidVersionError ((lookup versions d).getD "")) := by
  induction deps with
  | nil => simp at h
  | cons x rest ih =>
    cases hx : hasInvalidRange env versions x with
    | true =>
      rw [List.find?_cons_of_pos _ hx] at h
      injection h with h
      subst h
      rw [filterUnsatisfied, depFilter_error_of_invalid env own versions x hx]
      rfl
    | false =>
      rw [List.find?_cons_of_neg _ (by simp [hx])] at h
      rw [filterUnsatisfied, depFilter_ok_of_valid env own versions x hx, ih h]
      rfl

/-- Claim C2, amended: when some requested package has a non-empty required
range failing `validRange`, `install` fails with the configuration error of
the first such package (in request order), the error's message is
`Invalid npm version: <range>. Use proper semver range syntax.` — the code
prefixes `npm`, unlike the spec's quoted message — and no backend command is
issued (the call never reaches the command runner, so there is no partial
application of the batch). -/
theorem install_invalid_range (env : Env) (deps : DepsArg) (options : Options)
    (d : String)
    (h : (requestedNames deps options).find?
      (hasInvalidRange env (requestedVersions deps options)) = some d) :
    install env deps options =
      .error (invalidVersionError
        ((lookup (requestedVersions deps options) d).getD "")) ∧
    (invalidVersionError ((lookup (requestedVersions deps options) d).getD "")).message =
      "Invalid npm version: " ++ ((lookup (requestedVersions deps options) d).getD "") ++
        ". Use proper semver range syntax." ∧
    ∀ c : Command, install env deps options ≠ .ok (some c) := by
  have he := filterUnsatisfied_error_of_find env
    (getOwnDependencies env (devScope options)) (requestedVersions deps options)
    (requestedNames deps options) d h
  simp only [requestedNames, requestedVersions] at he
  have hi : install env deps options =
      .error (invalidVersionError
        ((lookup (requestedVersions deps options) d).getD "")) := by
    simp only [install, getUnsatisfiedDeps, he, requestedVersions]
  refine ⟨hi, rfl, fun c hc => ?_⟩
  rw [hi] at hc
  exact Except.noConfusion hc

/-- Claim C2, counterexample to the literal message: the raised error's
message says `Invalid npm version: …`, not the claimed
`Invalid version: …`. -/
theorem invalid_range_message_counterexample :
    install envRejectAll (.withVersions [("pkg", "not a range")]) {} =
      .error { message :=
        "Invalid npm version: not a range. Use proper semver range syntax." } ∧
    "Invalid npm version: not a range. Use proper semver range syntax." ≠
      "Invalid version: not a range. Use proper semver range syntax." :=
  ⟨rfl, by decide⟩

/-- Witness for `install_invalid_range`: a request whose only package carries
the invalid range `not a range`. -/
theorem install_invalid_range_witness :
    (requestedNames (.withVersions [("pkg", "not a range")]) {}).find?
      (hasInvalidRange envRejectAll
        (requestedVersions (.withVersions [("pkg", "not a range")]) {})) =
      some "pkg" ∧
    install envRejectAll (.withVersions [("pkg", "not a range")]) {} =
      .error (invalidVersionError
        ((lookup (requestedVersions (.withVersions [("pkg", "not a range")]) {})
          "pkg").getD "")) :=
  ⟨rfl,
   (install_invalid_range envRejectAll (.withVersions [("pkg", "not a range")]) {}
     "pkg" rfl).1⟩

/-- Claim C3: when every requested package is declared in the active section,
installed, and its required range (when non-empty) is valid and satisfied by
the installed version, the unsatisfied set is empty and `install` issues no
command (`.ok none` models the early return); since the call performs no
action, repeating it under the same state again performs none
(idempotence). -/
theorem install_idempotent (env : Env) (deps : DepsArg) (options : Options)
    (h : ∀ d ∈ requestedNames deps options,
      isTruthy (getInstalledVersion env d) = true ∧
      isTruthy (lookup (getOwnDependencies env (devScope options)) d) = true ∧
      (isTruthy (lookup (requestedVersions deps options) d) = true →
        env.validRange ((lookup (requestedVersions deps options) d).getD "") = true ∧
        env.satisfies ((getInstalledVersion env d).getD "")
          ((lookup (requestedVersions deps options) d).getD "") = true)) :
    getUnsatisfiedDeps env (requestedNames deps options)
      (requestedVersions deps options) (devScope options) = .ok [] ∧
    install env deps options = .ok none := by
  have hvalid : ∀ d ∈ requestedNames deps options,
      isTruthy (lookup (requestedVersions deps options) d) = true →
      env.validRange ((lookup (requestedVersions deps options) d).getD "") = true :=
    fun d hd ht => ((h d hd).2.2 ht).1
  have hchar := filterUnsatisfied_eq_filter env
    (getOwnDependencies env (devScope options)) (requestedVersions deps options)
    (requestedNames deps options) hvalid
  have hnil : (requestedNames deps options).filter
      (needsAction env (getOwnDependencies env (devScope options))
        (requestedVersions deps options)) = [] := by
    rw [List.filter_eq_nil_iff]
    intro d hd
    have hh := h d hd
    cases ht : isTruthy (lookup (requestedVersions deps options) d)
    · simp [needsAction, hh.1, hh.2.1, ht]
    · simp [needsAction, hh.1, hh.2.1, ht, (hh.2.2 ht).2]
  have h1 : getUnsatisfiedDeps env (requestedNames deps options)
      (requestedVersions deps options) (devScope options) = .ok [] := by
    rw [getUnsatisfiedDeps, hchar, hnil]
  refine ⟨h1, ?_⟩
  simp only [requestedNames, requestedVersions] at h1
  simp [install, getUnsatisfiedDeps, h1]
  simp only [getUnsatisfiedDeps] at h1
  simp [install, h1]

/-- Witness for `install_idempotent`: `pkg` declared at `^1.2.0`, installed
at `1.2.5`, requested again at `^1.2.0`. -/
theorem install_idempotent_witness :
    (∀ d ∈ requestedNames (.withVersions [("pkg", "^1.2.0")]) {},
      isTruthy (getInstalledVersion envSatisfied d) = true ∧
      isTruthy (lookup (getOwnDependencies envSatisfied
        (devScope {})) d) = true ∧
      (isTruthy (lookup (requestedVersions (.withVersions [("pkg", "^1.2.0")]) {}) d) = true →
        envSatisfied.validRange
          ((lookup (requestedVersions (.withVersions [("pkg", "^1.2.0")]) {}) d).getD "") = true ∧
        envSatisfied.satisfies ((getInstalledVersion envSatisfied d).getD "")
          ((lookup (requestedVersions (.withVersions [("pkg", "^1.2.0")]) {}) d).getD "") = true)) ∧
    install envSatisfied (.withVersions [("pkg", "^1.2.0")]) {} = .ok none :=
  ⟨by decide,
   (install_idempotent envSatisfied (.withVersions [("pkg", "^1.2.0")]) {}
     (by decide)).2⟩

theorem uninstall_shape (env : Env) (deps : StrOrList) (options : Options) :
    uninstall env deps options =
      if (computeRemovable env (devScope options) (castArray deps)).length == 0 then
        none
      else
        some ((if options.yarn || isUsingYarn env then runYarn else runNpm)
          (computeRemovable env (devScope options) (castArray deps))
          { dev := devScope options, remove := true }) := rfl

/-- Claim C4, counterexample to the literal statement: in `envRemoval` the
dev section declares `kept` at `1.0.0` and `unused-pkg` with the empty
string, so both requested names are keys of the map, yet the executed
command's package list omits `unused-pkg`, and a request for `unused-pkg`
alone executes no command at all. -/
theorem uninstall_keys_counterexample :
    claimRemovable (getOwnDependencies envRemoval true) ["kept", "unused-pkg"] =
      ["kept", "unused-pkg"] ∧
    lookup (getOwnDependencies envRemoval true) "unused-pkg" = some "" ∧
    uninstall envRemoval (.names ["kept", "unused-pkg"]) {} =
      some { program := "npm", args := ["uninstall", "--save-dev", "kept"] } ∧
    uninstall envRemoval (.names ["unused-pkg"]) {} = none :=
  ⟨rfl, rfl, rfl, rfl⟩

/-- Claim C4, amended: the removable set is the subset of requested names, in
request order, whose entry in the active section's map is a non-empty string
(a key declared with the empty string is skipped like an undeclared one);
requested names outside that set are silently dropped (`uninstall` never
errors — its result is an optional command), when the removable set is empty
no command is executed, and an executed command's argument list ends with
exactly the removable set. -/
theorem uninstall_removable (env : Env) (deps : StrOrList) (options : Options) :
    (∀ d, d ∈ computeRemovable env (devScope options) (castArray deps) ↔
      d ∈ castArray deps ∧
        isTruthy (lookup (getOwnDependencies env (devScope options)) d) = true) ∧
    (computeRemovable env (devScope options) (castArray deps)).Sublist
      (castArray deps) ∧
    (computeRemovable env (devScope options) (castArray deps) = [] ↔
      uninstall env deps options = none) ∧
    ∀ c : Command, uninstall env deps options = some c →
      (computeRemovable env (devScope options) (castArray deps)).IsSuffix c.args := by
  have hs := uninstall_shape env deps options
  refine ⟨fun d => by simp [computeRemovable, List.mem_filter],
    List.filter_sublist _, ?_, ?_⟩
  · rw [hs]
    cases hr : computeRemovable env (devScope options) (castArray deps) with
    | nil => simp
    | cons a l => simp
  · intro c hc
    rw [hs] at hc
    cases hr : computeRemovable env (devScope options) (castArray deps) with
    | nil => rw [hr] at hc; simp at hc
    | cons a l =>
      rw [hr] at hc
      rw [if_neg (by simp)] at hc
      injection hc with hc
      rw [← hc]
      cases hy : options.yarn || isUsingYarn env <;>
        simp [runYarn, runNpm, hy]
      exact (List.suffix_cons _ _).trans (List.suffix_cons _ _)

/-- Witness for `uninstall_removable`: the scenario where `unused-pkg` is not
effectively declared, so nothing is removable and no command runs. -/
theorem uninstall_removable_witness :
    computeRemovable envRemoval (devScope {}) ["unused-pkg"] = [] ∧
    uninstall envRemoval (.names ["unused-pkg"]) {} = none :=
  ⟨rfl, (uninstall_removable envRemoval (.names ["unused-pkg"]) {}).2.2.1.mp rfl⟩

theorem install_ok_some (env : Env) (deps : DepsArg) (options : Options)
    (c : Command) (h : install env deps options = .ok (some c)) :
    ∃ us, getUnsatisfiedDeps env (requestedNames deps options)
        (requestedVersions deps options) (devScope options) = .ok us ∧
      us ≠ [] ∧
      c = (if options.yarn || isUsingYarn env then runYarn else runNpm)
        (us.map (fun dep => getVersionedDep dep (requestedVersions deps options)))
        { dev := devScope options, remove := false } := by
  simp only [install] at h
  split at h
  · exact absurd h (by simp)
  next us heq =>
    split at h
    · exact absurd h (by simp)
    next hlen =>
      injection h with h
      injection h with h
      refine ⟨us, heq, ?_, h.symm⟩
      intro hnil
      subst hnil
      simp at hlen

/-- Claim C5: for both operations, the backend is yarn when the yarn option
is set, else yarn exactly when `yarn.lock` exists at the root, else npm; the
yarn command's first argument is `add`/`remove` while npm's is
`install`/`uninstall`; the choice is uniform — a call issues at most the one
command characterised here. -/
theorem backend_selection (env : Env) (ideps : DepsArg) (udeps : StrOrList)
    (options : Options) :
    (∀ c : Command, install env ideps options = .ok (some c) →
      c.program = (if options.yarn || isUsingYarn env then "yarn" else "npm") ∧
      c.args.head? =
        some (if options.yarn || isUsingYarn env then "add" else "install")) ∧
    (∀ c : Command, uninstall env udeps options = some c →
      c.program = (if options.yarn || isUsingYarn env then "yarn" else "npm") ∧
      c.args.head? =
        some (if options.yarn || isUsingYarn env then "remove" else "uninstall")) := by
  constructor
  · intro c hc
    obtain ⟨us, -, -, hceq⟩ := install_ok_some env ideps options c hc
    subst hceq
    cases hy : options.yarn || isUsingYarn env <;>
      cases hd : devScope options <;>
        simp [runYarn, runNpm, hy, hd]
  · intro c hc
    rw [uninstall_shape env udeps options] at hc
    cases hr : computeRemovable env (devScope options) (castArray udeps) with
    | nil => rw [hr] at hc; simp at hc
    | cons a l =>
      rw [hr] at hc
      rw [if_neg (by simp)] at hc
      injection hc with hc
      rw [← hc]
      cases hy : options.yarn || isUsingYarn env <;>
        simp [runYarn, runNpm, hy]

/-- Witness for `backend_selection`: with a `yarn.lock` marker present, the
constructed install command is a yarn `add`. -/
theorem backend_selection_witness :
    install envYarnLock (.single "a") {} =
      .ok (some { program := "yarn", args := ["add", "--dev", "a@latest"] }) ∧
    (Command.mk "yarn" ["add", "--dev", "a@latest"]).program =
      (if ({} : Options).yarn || isUsingYarn envYarnLock then "yarn" else "npm") ∧
    (Command.mk "yarn" ["add", "--dev", "a@latest"]).args.head? =
      some (if ({} : Options).yarn || isUsingYarn envYarnLock then "add"
        else "install") := by
  refine ⟨rfl, ?_, ?_⟩
  · exact ((backend_selection envYarnLock (.single "a") (.names []) {}).1
      (Command.mk "yarn" ["add", "--dev", "a@latest"]) rfl).1
  · exact ((backend_selection envYarnLock (.single "a") (.names []) {}).1
      (Command.mk "yarn" ["add", "--dev", "a@latest"]) rfl).2

/-- Claim C6, counterexample to the literal statement: the primary backend
emits the dev-scope flag for the remove action too — the constructed command
is `npm uninstall --save-dev a`, so the flag is not omitted there. -/
theorem npm_remove_flag_counterexample :
    runNpm ["a"] { dev := true, remove := true } =
      { program := "npm", args := ["uninstall", "--save-dev", "a"] } ∧
    "--save-dev" ∈ (runNpm ["a"] { dev := true, remove := true }).args :=
  ⟨rfl, by decide⟩

/-- Claim C6, amended: both backends build the argument list from the action
verb (first argument) followed by the ordered package list (final suffix);
the dev flag is only meaningful for the install/add action — yarn omits
`--dev` for remove, while npm always places a save-scope flag
(`--save-dev`/`--save`) in second position, for uninstall as well. -/
theorem command_construction (deps : List String) (o : RunOpts) :
    deps.IsSuffix (runNpm deps o).args ∧
    deps.IsSuffix (runYarn deps o).args ∧
    (runNpm deps o).args.head? =
      some (if o.remove then "uninstall" else "install") ∧
    (runNpm deps o).args[1]? = some (if o.dev then "--save-dev" else "--save") ∧
    (o.remove = true → (runYarn deps o).args = "remove" :: deps) ∧
    (o.remove = false → o.dev = true →
      (runYarn deps o).args = "add" :: "--dev" :: deps) ∧
    (o.remove = false → o.dev = false → (runYarn deps o).args = "add" :: deps) := by
  refine ⟨?_, ?_, ?_, ?_, ?_, ?_, ?_⟩
  · exact List.suffix_append _ _
  · exact List.suffix_append _ _
  · rfl
  · simp [runNpm]
  · intro hr
    simp [runYarn, hr]
  · intro hr hd
    simp [runYarn, hr, hd]
  · intro hr hd
    simp [runYarn, hr, hd]

/-- Witness for `command_construction`: at `remove := true` yarn omits the
dev flag while npm still carries `--save-dev`. -/
theorem command_construction_witness :
    (runYarn ["a"] { dev := true, remove := true }).args = "remove" :: ["a"] ∧
    (runNpm ["a"] { dev := true, remove := true }).args[1]? = some "--save-dev" :=
  ⟨(command_construction ["a"] { dev := true, remove := true }).2.2.2.2.1 rfl,
   (command_construction ["a"] { dev := true, remove := true }).2.2.2.1⟩

/-- Claim C7: every package of the unsatisfied set reaches the backend as
`name@range` when a non-empty range is present in the version map in force,
and as `name@latest` otherwise; the versioned packages form the executed
command's package list (the final suffix of its arguments), in
unsatisfied-set order. -/
theorem install_versioned_args (env : Env) (deps : DepsArg) (options : Options)
    (c : Command) (h : install env deps options = .ok (some c)) :
    ∃ us, getUnsatisfiedDeps env (requestedNames deps options)
        (requestedVersions deps options) (devScope options) = .ok us ∧
      us ≠ [] ∧
      (us.map (fun dep =>
        getVersionedDep dep (requestedVersions deps options))).IsSuffix c.args ∧
      ∀ dep, getVersionedDep dep (requestedVersions deps options) =
        dep ++ "@" ++
          (if isTruthy (lookup (requestedVersions deps options) dep) = true
           then (lookup (requestedVersions deps options) dep).getD ""
           else "latest") := by
  obtain ⟨us, hus, hne, hceq⟩ := install_ok_some env deps options c h
  refine ⟨us, hus, hne, ?_, fun dep => by rw [getVersionedDep, jsOrElse_eq]⟩
  subst hceq
  cases hy : options.yarn || isUsingYarn env <;>
    cases hd : devScope options <;>
      simp [runYarn, runNpm, hy, hd]
  all_goals exact (List.suffix_cons _ _).trans (List.suffix_cons _ _)

/-- Witness for `install_versioned_args`: `install({ lodash: '^4.0.0' })`
with no `lodash` installed yields unsatisfied set `['lodash']` and the
install argument list carries `lodash@^4.0.0`. -/
theorem install_versioned_args_witness :
    install envPlain (.withVersions [("lodash", "^4.0.0")]) {} =
      .ok (some (Command.mk "npm" ["install", "--save-dev", "lodash@^4.0.0"])) ∧
    getUnsatisfiedDeps envPlain ["lodash"] [("lodash", "^4.0.0")] true =
      .ok ["lodash"] ∧
    (∃ us, getUnsatisfiedDeps envPlain
        (requestedNames (.withVersions [("lodash", "^4.0.0")]) {})
        (requestedVersions (.withVersions [("lodash", "^4.0.0")]) {})
        (devScope {}) = .ok us ∧
      us ≠ [] ∧
      (us.map (fun dep => getVersionedDep dep
        (requestedVersions (.withVersions [("lodash", "^4.0.0")]) {}))).IsSuffix
        ["install", "--save-dev", "lodash@^4.0.0"] ∧
      ∀ dep, getVersionedDep dep
          (requestedVersions (.withVersions [("lodash", "^4.0.0")]) {}) =
        dep ++ "@" ++
          (if isTruthy (lookup (requestedVersions
              (.withVersions [("lodash", "^4.0.0")]) {}) dep) = true
           then (lookup (requestedVersions
              (.withVersions [("lodash", "^4.0.0")]) {}) dep).getD ""
           else "latest")) :=
  ⟨rfl, rfl,
   install_versioned_args envPlain (.withVersions [("lodash", "^4.0.0")]) {}
     { program := "npm", args := ["install", "--save-dev", "lodash@^4.0.0"] } rfl⟩

/-- Claim C8, counterexample: a list-shaped request is passed through without
deduplication, so `install(['a', 'a'])` on an empty project acts on `a`
twice and the constructed command's package list carries `a@latest` twice. -/
theorem duplicate_names_counterexample :
    requestedNames (.names ["a", "a"]) {} = ["a", "a"] ∧
    ¬ (requestedNames (.names ["a", "a"]) {}).Nodup ∧
    getUnsatisfiedDeps envPlain ["a", "a"] [] true = .ok ["a", "a"] ∧
    install envPlain (.names ["a", "a"]) {} =
      .ok (some (Command.mk "npm"
        ["install", "--save-dev", "a@latest", "a@latest"])) :=
  ⟨rfl, by decide, rfl, rfl⟩

/-- Claim C8, amended: normalisation yields a singleton (hence duplicate-free)
name list for a string request and the mapping's keys (duplicate-free
whenever the object's keys are unique, which a JS object guarantees) plus the
mapping as constraint map for a mapping request; a list request, however, is
used exactly as given, so duplicates in it propagate to the action sequence
and the command. -/
theorem normalization_uniqueness (s : String) (l : List String) (m : ObjMap)
    (options : Options) :
    requestedNames (.single s) options = [s] ∧
    (requestedNames (.single s) options).Nodup ∧
    requestedVersions (.single s) options = options.versions ∧
    requestedNames (.names l) options = l ∧
    requestedVersions (.names l) options = options.versions ∧
    requestedNames (.withVersions m) options = m.map (fun p => p.1) ∧
    requestedVersions (.withVersions m) options = m ∧
    ((m.map (fun p => p.1)).Nodup →
      (requestedNames (.withVersions m) options).Nodup) :=
  ⟨rfl, by simp [requestedNames, normalizeDeps], rfl, rfl, rfl, rfl, rfl,
   fun h => h⟩

/-- Witness for `normalization_uniqueness`: a mapping request with distinct
keys normalises to a duplicate-free name list. -/
theorem normalization_uniqueness_witness :
    (requestedNames (.withVersions [("x", "1.0.0"), ("y", "2.0.0")]) {}).Nodup :=
  (normalization_uniqueness "a" ["a", "a"] [("x", "1.0.0"), ("y", "2.0.0")]
    {}).2.2.2.2.2.2.2 (by decide)

/-- Claim C9: for a mapping-shaped request the separately supplied
`options.versions` is ignored entirely — two calls differing only in
`options.versions` coincide — and the constraint map in force is the mapping
itself while the acted-on names are exactly its keys. -/
theorem mapping_overrides_versions (env : Env) (m : ObjMap) (o1 o2 : Options)
    (hdev : o1.dev = o2.dev) (hyarn : o1.yarn = o2.yarn) :
    install env (.withVersions m) o1 = install env (.withVersions m) o2 ∧
    requestedVersions (.withVersions m) o1 = m ∧
    requestedNames (.withVersions m) o1 = m.map (fun p => p.1) := by
  refine ⟨?_, rfl, rfl⟩
  simp [install, normalizeDeps, devScope, hdev, hyarn]

/-- Witness for `mapping_overrides_versions`: supplying a conflicting
`options.versions` alongside a mapping request changes nothing. -/
theorem mapping_overrides_versions_witness :
    (({} : Options).dev = ({ versions := [("lodash", "9.9.9")] } : Options).dev) ∧
    (({} : Options).yarn = ({ versions := [("lodash", "9.9.9")] } : Options).yarn) ∧
    install envPlain (.withVersions [("lodash", "^4.0.0")]) {} =
      install envPlain (.withVersions [("lodash", "^4.0.0")])
        { versions := [("lodash", "9.9.9")] } :=
  ⟨rfl, rfl,
   (mapping_overrides_versions envPlain [("lodash", "^4.0.0")] {}
     { versions := [("lodash", "9.9.9")] } rfl rfl).1⟩

/-- Claim C10: a requested package whose entry in the version map is the
empty string is never validated — the filter answers `.ok` whatever
`validRange` would say, so no configuration error arises from that entry —
and the package is treated as having no required range: it is kept exactly
when it is not installed or not effectively declared, and its command
argument is suffixed `@latest`, not with the empty range. -/
theorem empty_range_no_validation (env : Env) (dev : Bool) (versions : ObjMap)
    (dep : String) (h : lookup versions dep = some "") :
    depFilter env (getOwnDependencies env dev) versions dep =
      .ok (!(isTruthy (getInstalledVersion env dep)) ||
        !(isTruthy (lookup (getOwnDependencies env dev) dep))) ∧
    getVersionedDep dep versions = dep ++ "@" ++ "latest" := by
  have ht : isTruthy (some "") = false := rfl
  constructor
  · cases hins : isTruthy (getInstalledVersion env dep) <;>
      cases hown : isTruthy (lookup (getOwnDependencies env dev) dep) <;>
        simp [depFilter, h, ht, hins, hown]
  · simp [getVersionedDep, h, jsOrElse]

/-- Witness for `empty_range_no_validation`: an evaluator rejecting every
range still raises no error for the empty-string entry, and the command
argument is `p@latest`. -/
theorem empty_range_no_validation_witness :
    lookup [("p", "")] "p" = some "" ∧
    depFilter envRejectAll (getOwnDependencies envRejectAll true) [("p", "")] "p" =
      .ok true ∧
    getVersionedDep "p" [("p", "")] = "p" ++ "@" ++ "latest" :=
  ⟨rfl,
   ((empty_range_no_validation envRejectAll true [("p", "")] "p" rfl).1).trans rfl,
   (empty_range_no_validation envRejectAll true [("p", "")] "p" rfl).2⟩

end Mrm

